import Mathlib

/-!
# urlshort: the redirect resolver and the mapping loader

A shallow embedding of `src/urlshort/handler.go` and the properties of its
three functions `MapHandler`, `YAMLHandler` and `parseYAML`.

Conventions of the embedding.

* A Go `string` is a Lean `String`.
* A Go `map[string]string` is an association list with one entry per key
  (`StringMap`); a nil map is `none` of `Option StringMap`.
* A Go `error` is an `Error`; the nil error is `none` of `Option Error`.
  A function returning `(T, error)` returns a pair of options, so that a
  value returned together with an error stays expressible.
* `http.Redirect` and `yaml.Unmarshal` belong to libraries outside the
  package.  The functions of the package take them as parameters; a model of
  `http.Redirect` after the Go standard library is given further down for the
  properties that speak about the bytes of the response.
* The handler that `MapHandler` returns reports, next to the response writer,
  the list of requests it passed to `fallback.ServeHTTP` (a ghost log).
-/

namespace urlshort

/-! ## Go values -/

/-- Go `map[string]string`: the entries, one for each key. -/
abbrev StringMap := List (String × String)

namespace StringMap

/-- The expression `make(map[string]string)`. -/
def empty : StringMap := []

/-- The comma-ok index expression `v, ok := m[k]`: `some v` when `ok`. -/
def get : StringMap → String → Option String
  | [], _ => none
  | (k', v) :: rest, k => if k' = k then some v else get rest k

/-- The assignment `m[k] = v`: overwrites the entry of `k` or adds one. -/
def set : StringMap → String → String → StringMap
  | [], k, v => [(k, v)]
  | (k', v') :: rest, k, v =>
    if k' = k then (k', v) :: rest else (k', v') :: set rest k v

/-- The keys of the map. -/
def keys (m : StringMap) : List String := m.map Prod.fst

end StringMap

/-- Go `error` values (the nil error is `none : Option Error`). -/
abbrev Error := String

/-- Go `[]byte`. -/
abbrev Bytes := List UInt8

/-- The fields of `*http.Request` the package and `http.Redirect` read:
`r.Method` and `r.URL.Path`. -/
structure Request where
  Method : String
  Path : String
deriving DecidableEq

/-- Go `http.Handler`: `ServeHTTP(w, r)` as a function of the response writer
(and whatever else the handler can change, all of it in `W`). -/
abbrev Handler (W : Type) := W → Request → W

/-- What one call of the handler built by `MapHandler` leaves behind: the
response writer, and the requests handed to `fallback.ServeHTTP`, in order. -/
structure Served (W : Type) where
  w : W
  fallbackCalls : List Request

/-- Go `http.HandlerFunc`, as returned by `MapHandler`. -/
abbrev HandlerFunc (W : Type) := W → Request → Served W

/-- Constant `http.StatusFound`. -/
def StatusFound : Nat := 302

/-- Type `pathURL` of handler.go: one decoded record. -/
structure pathURL where
  Path : String
  URL : String
deriving DecidableEq

/-- How one item of the YAML list fills a `pathURL`: the struct tags name the
keys `path` and `url`; a key that is present sets its field, a field whose key
is absent keeps the zero value of a Go string, the empty string. -/
def pathURL.ofFields (path url : Option String) : pathURL :=
  { Path := path.getD "", URL := url.getD "" }

/-! ## handler.go -/

/-- Function `MapHandler` of handler.go.  `Redirect` is `http.Redirect`. -/
def MapHandler {W : Type} (Redirect : W → Request → String → Nat → W)
    (pathsToUrls : StringMap) (fallback : Handler W) : HandlerFunc W :=
  fun w r =>
    let path := r.Path
    match pathsToUrls.get path with
    | some redir => { w := Redirect w r redir StatusFound, fallbackCalls := [] }
    | none => { w := fallback w r, fallbackCalls := [r] }

/-- The loop `for _, item := range data { mp[item.Path] = item.URL }`. -/
def moveData (mp : StringMap) (data : List pathURL) : StringMap :=
  data.foldl (fun mp item => mp.set item.Path item.URL) mp

/-- Function `parseYAML` of handler.go.  `Unmarshal yml` is
`yaml.Unmarshal(yml, &data)`: the contents of `data` after the call and the
error returned. -/
def parseYAML (Unmarshal : Bytes → List pathURL × Option Error) (yml : Bytes) :
    Option StringMap × Option Error :=
  let mp := StringMap.empty
  let (data, err) := Unmarshal yml
  match err with
  | some e => (none, some e)
  | none => (some (moveData mp data), none)

/-- Reading a map that may be nil: a nil map reads as an empty one. -/
def readMap (mp : Option StringMap) : StringMap := mp.getD StringMap.empty

/-- Function `YAMLHandler` of handler.go. -/
def YAMLHandler {W : Type} (Redirect : W → Request → String → Nat → W)
    (Unmarshal : Bytes → List pathURL × Option Error) (yml : Bytes)
    (fallback : Handler W) : Option (HandlerFunc W) × Option Error :=
  let (mp, err) := parseYAML Unmarshal yml
  match err with
  | some e => (none, some e)
  | none => (some (MapHandler Redirect (readMap mp) fallback), none)

/-! ## net/http

The part of the Go standard library behind `http.Redirect(w, r, url, code)`,
after `net/http/server.go` and `path/path.go`.  Strings are handled as lists
of characters; every byte the library inspects (`/`, `.`, `?`, `&`, ...) is
ASCII, so that positions of bytes and of characters agree where it looks. -/

namespace http

/-- Go `http.Header`, a `map[string][]string`. -/
abbrev Header := List (String × List String)

/-- The test `_, ok := h[key]`. -/
def Header.has : Header → String → Bool
  | [], _ => false
  | (k, _) :: rest, key => if k = key then true else Header.has rest key

/-- The index expression `h[key]` (nil when the key is absent). -/
def Header.values : Header → String → List String
  | [], _ => []
  | (k, vs) :: rest, key => if k = key then vs else Header.values rest key

/-- Method `Header.Set`, for a key in canonical form: `h[key] = []string{value}`. -/
def Header.Set : Header → String → String → Header
  | [], key, value => [(key, [value])]
  | (k, vs) :: rest, key, value =>
    if k = key then (k, [value]) :: rest else (k, vs) :: Header.Set rest key value

/-- The response as an `http.ResponseWriter` records it: the header map, whether
the status line has been written and with which code, and the body written. -/
structure ResponseWriter where
  header : Header
  wroteHeader : Bool
  status : Nat
  body : String
deriving DecidableEq

/-- The response writer a server hands to a handler: nothing set or written. -/
def ResponseWriter.fresh : ResponseWriter :=
  { header := [], wroteHeader := false, status := 0, body := "" }

/-- Method `WriteHeader`: the first call fixes the status code, later calls
are ignored. -/
def ResponseWriter.WriteHeader (w : ResponseWriter) (code : Nat) : ResponseWriter :=
  if w.wroteHeader then w else { w with wroteHeader := true, status := code }

/-- Method `Write`: writes the header with status 200 when none was written,
then appends to the body. -/
def ResponseWriter.Write (w : ResponseWriter) (b : String) : ResponseWriter :=
  let w := if w.wroteHeader then w else w.WriteHeader 200
  { w with body := w.body ++ b }

/-- Call `fmt.Fprintln(w, s)`. -/
def Fprintln (w : ResponseWriter) (s : String) : ResponseWriter :=
  w.Write (s ++ "\n")

/-- Function `path.Split`: the path up to and including its last slash, and
what follows it. -/
def pathSplit (path : List Char) : List Char × List Char :=
  let file := (path.reverse.takeWhile (fun c => c ≠ '/')).reverse
  let dir := (path.reverse.dropWhile (fun c => c ≠ '/')).reverse
  (dir, file)

/-- The inner loop of the `..` case of `path.Clean`, entered after the first
`out.w--` with the new `out.w`: it steps back while `out.w > dotdot` and the
byte at `out.w` is not a slash.  Returns the final `out.w`. -/
def cleanBacktrack (buf : List Char) (dotdot : Nat) : Nat → Nat
  | 0 => 0
  | w + 1 =>
    if dotdot < w + 1 ∧ buf.getD (w + 1) '/' ≠ '/' then cleanBacktrack buf dotdot w
    else w + 1

/-- The main loop of `path.Clean`: `r` is the index of the next byte of `path`
to read, `out` what has been written, `dotdot` the index where `..` must stop.
Every round reads at least one byte; the first argument bounds the rounds
(`cleanLoop_fuel`: one more than the bytes left is enough). -/
def cleanLoop (path : List Char) (rooted : Bool) :
    Nat → Nat → List Char → Nat → List Char
  | 0, _, out, _ => out
  | fuel + 1, r, out, dotdot =>
    let n := path.length
    if r < n then
      if path.getD r ' ' = '/' then
        cleanLoop path rooted fuel (r + 1) out dotdot
      else if path.getD r ' ' = '.' ∧ (r + 1 = n ∨ path.getD (r + 1) ' ' = '/') then
        cleanLoop path rooted fuel (r + 1) out dotdot
      else if path.getD r ' ' = '.' ∧ path.getD (r + 1) ' ' = '.'
          ∧ (r + 2 = n ∨ path.getD (r + 2) ' ' = '/') then
        if dotdot < out.length then
          cleanLoop path rooted fuel (r + 2)
            (out.take (cleanBacktrack out dotdot (out.length - 1))) dotdot
        else if ¬ rooted then
          let out := if 0 < out.length then out ++ ['/'] else out
          let out := out ++ ['.', '.']
          cleanLoop path rooted fuel (r + 2) out out.length
        else
          cleanLoop path rooted fuel (r + 2) out dotdot
      else
        let out :=
          if (rooted ∧ out.length ≠ 1) ∨ (¬ rooted ∧ out.length ≠ 0) then out ++ ['/']
          else out
        let elem := (path.drop r).takeWhile (fun c => c ≠ '/')
        cleanLoop path rooted fuel (r + elem.length) (out ++ elem) dotdot
    else out

/-- Function `path.Clean`. -/
def pathClean (path : List Char) : List Char :=
  if path = [] then ['.']
  else
    let rooted := path.head? = some '/'
    let out := cleanLoop path rooted (path.length + 1) (if rooted then 1 else 0)
      (if rooted then ['/'] else []) (if rooted then 1 else 0)
    if out.length = 0 then ['.'] else out

/-- One hexadecimal digit, lower case. -/
def hexDigit (n : Nat) : Char :=
  if n < 10 then Char.ofNat (48 + n) else Char.ofNat (87 + n)

/-- Function `hexEscapeNonASCII`: every byte from 0x80 on becomes `%` and its
two hexadecimal digits; the other bytes stay. -/
def hexEscapeNonASCII (s : List Char) : List Char :=
  s.flatMap fun c =>
    if c.toNat < 128 then [c]
    else (String.utf8EncodeChar c).flatMap fun b =>
      ['%', hexDigit (b.toNat / 16), hexDigit (b.toNat % 16)]

/-- Function `htmlEscape`: the replacer for `&`, `<`, `>`, the double quote
and the apostrophe. -/
def htmlEscape (s : List Char) : List Char :=
  s.flatMap fun c =>
    if c = '&' then "&amp;".toList
    else if c = '<' then "&lt;".toList
    else if c = '>' then "&gt;".toList
    else if c = Char.ofNat 34 then "&#34;".toList
    else if c = Char.ofNat 39 then "&#39;".toList
    else [c]

/-- Function `http.StatusText`, the entries of the redirect codes. -/
def StatusText (code : Nat) : String :=
  if code = 301 then "Moved Permanently"
  else if code = 302 then "Found"
  else if code = 303 then "See Other"
  else if code = 307 then "Temporary Redirect"
  else if code = 308 then "Permanent Redirect"
  else ""

/-- The first half of `http.Redirect`: a url that parses without scheme and
host is made absolute against the request path and cleaned, its query and its
trailing slash kept; any other url is left as it is.  `urlParse url` is
`url.Parse(url)`: the `Scheme` and `Host` of the result, `none` on an error.
`escapedPath r` is the request path the url is joined to,
`r.URL.EscapedPath()`: the encoded form of the path, which depends on the field
`RawPath` of the url and is therefore given from outside (releases of the
library that join to `r.URL.Path` are the case `escapedPath r = r.Path`). -/
def redirectTarget (urlParse : String → Option (String × String))
    (escapedPath : Request → String) (r : Request) (url : String) : String :=
  match urlParse url with
  | some (scheme, host) =>
    if scheme = "" ∧ host = "" then
      let oldpath := if escapedPath r = "" then "/" else escapedPath r
      let url : List Char :=
        if url = "" ∨ url.toList.head? ≠ some '/' then
          (pathSplit oldpath.toList).1 ++ url.toList
        else url.toList
      let query : List Char := if '?' ∈ url then url.dropWhile (fun c => c ≠ '?') else []
      let url := if '?' ∈ url then url.takeWhile (fun c => c ≠ '?') else url
      let trailing := url.getLast? = some '/'
      let url := pathClean url
      let url := if trailing ∧ url.getLast? ≠ some '/' then url ++ ['/'] else url
      String.mk (url ++ query)
    else url
  | none => url

/-- Function `http.Redirect` of the Go standard library. -/
def Redirect (urlParse : String → Option (String × String))
    (escapedPath : Request → String) (w : ResponseWriter)
    (r : Request) (url : String) (code : Nat) : ResponseWriter :=
  let url := redirectTarget urlParse escapedPath r url
  let h := w.header
  let hadCT := h.has "Content-Type"
  let h := h.Set "Location" (String.mk (hexEscapeNonASCII url.toList))
  let h :=
    if ¬ hadCT ∧ (r.Method = "GET" ∨ r.Method = "HEAD") then
      h.Set "Content-Type" "text/html; charset=utf-8"
    else h
  let w := ({ w with header := h } : ResponseWriter).WriteHeader code
  if ¬ hadCT ∧ r.Method = "GET" then
    let body := "<a href=\"" ++ String.mk (htmlEscape url.toList) ++ "\">"
      ++ StatusText code ++ "</a>.\n"
    Fprintln w body
  else w

end http

/-! ## Values of the examples -/

namespace Example

/-- A response writer that records what was sent through it. -/
inductive Reply where
  | redirect (url : String) (code : Nat)
  | notFound (path : String)
deriving DecidableEq

/-- A stand-in for `http.Redirect` that records the url and the code. -/
def redirect (w : List Reply) (_r : Request) (url : String) (code : Nat) : List Reply :=
  w ++ [Reply.redirect url code]

/-- A fallback handler that records the path it was asked for. -/
def notFound : Handler (List Reply) :=
  fun w r => w ++ [Reply.notFound r.Path]

/-- The mapping of the example of the specification. -/
def urlshortMap : StringMap :=
  [("/urlshort", "https://github.com/gophercises/urlshort")]

/-- A decoder that returns the given records and error for every input. -/
def decodeTo (data : List pathURL) (err : Option Error) :
    Bytes → List pathURL × Option Error :=
  fun _ => (data, err)

/-- The results of `url.Parse` at the two urls of the examples: the url of the
specification has the scheme `https` and the host `github.com`, the empty url
has neither; no other url is parsed in the examples. -/
def urlParse (url : String) : Option (String × String) :=
  if url = "https://github.com/gophercises/urlshort" then some ("https", "github.com")
  else if url = "" then some ("", "")
  else none

/-- The encoded form of the request paths of the examples, `/urlshort` and
`/go`: they hold no byte that is escaped, so it is the path itself. -/
def escapedPath (r : Request) : String := r.Path

/-- A decoder that returns the given records and error for the given bytes,
and fails on all other input. -/
def decodeAt (yml : Bytes) (data : List pathURL) (err : Option Error) :
    Bytes → List pathURL × Option Error :=
  fun b => if b = yml then (data, err) else ([], some "yaml: other input")

/-- A fallback handler that leaves the response as it is. -/
def idle : Handler http.ResponseWriter :=
  fun w _ => w

end Example

/-! ## Lemmas on maps -/

namespace StringMap

theorem get_set_self (m : StringMap) (k v : String) : (m.set k v).get k = some v := by
  induction m with
  | nil => simp [set, get]
  | cons kv rest ih =>
    obtain ⟨k', v'⟩ := kv
    by_cases hk : k' = k
    · simp [set, get, hk]
    · simp [set, get, hk, ih]

theorem get_set_other (m : StringMap) (k v p : String) (hp : k ≠ p) :
    (m.set k v).get p = m.get p := by
  induction m with
  | nil => simp [set, get, hp]
  | cons kv rest ih =>
    obtain ⟨k', v'⟩ := kv
    by_cases hk : k' = k
    · subst hk
      simp [set, get, hp]
    · by_cases hk' : k' = p
      · subst hk'
        simp [set, get, hk]
      · simp only [set, hk, if_false, get, hk', ih]

theorem mem_keys_set (m : StringMap) (k v p : String) :
    p ∈ (m.set k v).keys ↔ p = k ∨ p ∈ m.keys := by
  induction m with
  | nil => simp [set, keys]
  | cons kv rest ih =>
    obtain ⟨k', v'⟩ := kv
    by_cases hk : k' = k
    · subst hk
      simp [set, keys]
    · have ih' : p ∈ List.map Prod.fst (set rest k v) ↔ p = k ∨ p ∈ List.map Prod.fst rest := ih
      simp only [set, hk, keys, if_false, List.map_cons, List.mem_cons, ih']
      tauto

theorem get_eq_none_iff (m : StringMap) (p : String) : m.get p = none ↔ p ∉ m.keys := by
  induction m with
  | nil => simp [get, keys]
  | cons kv rest ih =>
    obtain ⟨k', v'⟩ := kv
    have ih' : get rest p = none ↔ p ∉ List.map Prod.fst rest := ih
    by_cases hk : k' = p
    · simp [get, keys, hk]
    · have hk' : ¬ p = k' := fun h => hk h.symm
      simp [get, keys, hk, hk', ih']

theorem get_isSome_iff (m : StringMap) (p : String) : (m.get p).isSome ↔ p ∈ m.keys := by
  have h := get_eq_none_iff m p
  cases hg : m.get p with
  | none => simp [hg] at h ⊢; exact h
  | some v => simp [hg] at h ⊢; exact h

theorem exists_get_of_mem_keys (m : StringMap) (p : String) (h : p ∈ m.keys) :
    ∃ v, m.get p = some v := by
  cases hg : m.get p with
  | none => exact absurd h ((get_eq_none_iff m p).1 hg)
  | some v => exact ⟨v, rfl⟩

theorem nodup_keys_set (m : StringMap) (k v : String) (h : m.keys.Nodup) :
    (m.set k v).keys.Nodup := by
  induction m with
  | nil => simp [set, keys]
  | cons kv rest ih =>
    obtain ⟨k', v'⟩ := kv
    have h' : k' ∉ List.map Prod.fst rest ∧ (List.map Prod.fst rest).Nodup := by
      simpa [keys] using h
    by_cases hk : k' = k
    · subst hk
      simpa [set, keys] using h'
    · have hmem := mem_keys_set rest k v k'
      have hnot : k' ∉ (set rest k v).keys := by
        rw [hmem]
        rintro (h1 | h1)
        · exact hk h1
        · exact h'.1 h1
      have hnd : (set rest k v).keys.Nodup := ih h'.2
      simp only [set, hk, if_false, keys, List.map_cons, List.nodup_cons]
      exact ⟨hnot, hnd⟩

end StringMap

/-! ## Lemmas on the loop of `parseYAML` -/

theorem moveData_nil (mp : StringMap) : moveData mp [] = mp := rfl

theorem moveData_cons (mp : StringMap) (item : pathURL) (data : List pathURL) :
    moveData mp (item :: data) = moveData (mp.set item.Path item.URL) data := rfl

theorem moveData_append (mp : StringMap) (xs ys : List pathURL) :
    moveData mp (xs ++ ys) = moveData (moveData mp xs) ys := by
  simp [moveData, List.foldl_append]

theorem moveData_get_of_absent (data : List pathURL) (mp : StringMap) (p : String)
    (h : ∀ item ∈ data, item.Path ≠ p) : (moveData mp data).get p = mp.get p := by
  induction data generalizing mp with
  | nil => rfl
  | cons item rest ih =>
    rw [moveData_cons, ih _ (fun it hit => h it (List.mem_cons_of_mem _ hit))]
    exact StringMap.get_set_other mp _ _ _ (h item (List.mem_cons_self _ _))

theorem moveData_get_last (mp : StringMap) (pre post : List pathURL) (item : pathURL)
    (h : ∀ it ∈ post, it.Path ≠ item.Path) :
    (moveData mp (pre ++ item :: post)).get item.Path = some item.URL := by
  rw [moveData_append, moveData_cons, moveData_get_of_absent post _ _ h]
  exact StringMap.get_set_self _ _ _

theorem mem_keys_moveData (data : List pathURL) (mp : StringMap) (p : String) :
    p ∈ (moveData mp data).keys ↔ p ∈ mp.keys ∨ ∃ item ∈ data, item.Path = p := by
  induction data generalizing mp with
  | nil => simp [moveData_nil]
  | cons item rest ih =>
    rw [moveData_cons, ih, StringMap.mem_keys_set]
    constructor
    · rintro ((h | h) | ⟨it, hit, hp⟩)
      · exact Or.inr ⟨item, List.mem_cons_self _ _, h.symm⟩
      · exact Or.inl h
      · exact Or.inr ⟨it, List.mem_cons_of_mem _ hit, hp⟩
    · rintro (h | ⟨it, hit, hp⟩)
      · exact Or.inl (Or.inr h)
      · rcases List.mem_cons.1 hit with h1 | h1
        · subst h1
          exact Or.inl (Or.inl hp.symm)
        · exact Or.inr ⟨it, h1, hp⟩

theorem nodup_keys_moveData (data : List pathURL) (mp : StringMap) (h : mp.keys.Nodup) :
    (moveData mp data).keys.Nodup := by
  induction data generalizing mp with
  | nil => exact h
  | cons item rest ih =>
    rw [moveData_cons]
    exact ih _ (StringMap.nodup_keys_set mp _ _ h)

theorem parseYAML_of_decoded (Unmarshal : Bytes → List pathURL × Option Error) (yml : Bytes)
    (data : List pathURL) (h : Unmarshal yml = (data, none)) :
    parseYAML Unmarshal yml = (some (moveData StringMap.empty data), none) := by
  simp [parseYAML, h]

theorem parseYAML_of_error (Unmarshal : Bytes → List pathURL × Option Error) (yml : Bytes)
    (e : Error) (h : (Unmarshal yml).2 = some e) :
    parseYAML Unmarshal yml = (none, some e) := by
  cases hU : Unmarshal yml with
  | mk data err =>
    rw [hU] at h
    simp only at h
    simp [parseYAML, hU, h]

theorem YAMLHandler_of_decoded {W : Type} (Redirect : W → Request → String → Nat → W)
    (Unmarshal : Bytes → List pathURL × Option Error) (yml : Bytes) (fallback : Handler W)
    (data : List pathURL) (h : Unmarshal yml = (data, none)) :
    YAMLHandler Redirect Unmarshal yml fallback
      = (some (MapHandler Redirect (moveData StringMap.empty data) fallback), none) := by
  simp [YAMLHandler, parseYAML_of_decoded Unmarshal yml data h, readMap]

theorem YAMLHandler_of_error {W : Type} (Redirect : W → Request → String → Nat → W)
    (Unmarshal : Bytes → List pathURL × Option Error) (yml : Bytes) (fallback : Handler W)
    (e : Error) (h : (Unmarshal yml).2 = some e) :
    YAMLHandler Redirect Unmarshal yml fallback = (none, some e) := by
  simp [YAMLHandler, parseYAML_of_error Unmarshal yml e h]

theorem MapHandler_of_get {W : Type} (Redirect : W → Request → String → Nat → W)
    (pathsToUrls : StringMap) (fallback : Handler W) (w : W) (r : Request) (url : String)
    (h : pathsToUrls.get r.Path = some url) :
    MapHandler Redirect pathsToUrls fallback w r
      = { w := Redirect w r url StatusFound, fallbackCalls := [] } := by
  simp [MapHandler, h]

theorem MapHandler_of_absent {W : Type} (Redirect : W → Request → String → Nat → W)
    (pathsToUrls : StringMap) (fallback : Handler W) (w : W) (r : Request)
    (h : r.Path ∉ pathsToUrls.keys) :
    MapHandler Redirect pathsToUrls fallback w r
      = { w := fallback w r, fallbackCalls := [r] } := by
  simp [MapHandler, (StringMap.get_eq_none_iff pathsToUrls r.Path).2 h]

/-! ## The redirect resolver -/

/-- C1: for every mapping, fallback handler and request whose path is a key of
the mapping, the handler returned by `MapHandler` answers with
`http.Redirect(w, r, mapping[path], 302)` and hands no request to the fallback;
the answer is the same whatever the fallback handler is. -/
theorem MapHandler_hit_redirects {W : Type} (Redirect : W → Request → String → Nat → W)
    (pathsToUrls : StringMap) (fallback : Handler W) (w : W) (r : Request)
    (hkey : r.Path ∈ pathsToUrls.keys) :
    ∃ url, pathsToUrls.get r.Path = some url ∧
      (MapHandler Redirect pathsToUrls fallback w r).w = Redirect w r url 302 ∧
      (MapHandler Redirect pathsToUrls fallback w r).fallbackCalls = [] ∧
      ∀ other : Handler W,
        MapHandler Redirect pathsToUrls other w r
          = MapHandler Redirect pathsToUrls fallback w r := by
  obtain ⟨url, hurl⟩ := StringMap.exists_get_of_mem_keys pathsToUrls r.Path hkey
  refine ⟨url, hurl, ?_, ?_, ?_⟩
  · rw [MapHandler_of_get Redirect pathsToUrls fallback w r url hurl]
    rfl
  · rw [MapHandler_of_get Redirect pathsToUrls fallback w r url hurl]
  · intro other
    rw [MapHandler_of_get Redirect pathsToUrls fallback w r url hurl,
      MapHandler_of_get Redirect pathsToUrls other w r url hurl]

/-- C1 at the example of the specification: a request for `/urlshort`. -/
theorem MapHandler_hit_redirects_witness :
    "/urlshort" ∈ Example.urlshortMap.keys ∧
    ∃ url, Example.urlshortMap.get "/urlshort" = some url ∧
      (MapHandler Example.redirect Example.urlshortMap Example.notFound []
          { Method := "GET", Path := "/urlshort" }).w
        = Example.redirect [] { Method := "GET", Path := "/urlshort" } url 302 ∧
      (MapHandler Example.redirect Example.urlshortMap Example.notFound []
          { Method := "GET", Path := "/urlshort" }).fallbackCalls = [] ∧
      ∀ other : Handler (List Example.Reply),
        MapHandler Example.redirect Example.urlshortMap other []
            { Method := "GET", Path := "/urlshort" }
          = MapHandler Example.redirect Example.urlshortMap Example.notFound []
            { Method := "GET", Path := "/urlshort" } :=
  ⟨by decide,
    MapHandler_hit_redirects Example.redirect Example.urlshortMap Example.notFound []
      { Method := "GET", Path := "/urlshort" } (by decide)⟩

/-- C2: for every mapping, fallback handler and request whose path is not,
as a string, one of the keys of the mapping, the handler returned by
`MapHandler` hands exactly one request to the fallback, the request it
received, and leaves the response writer exactly as the fallback left it;
`http.Redirect` plays no part in the answer. -/
theorem MapHandler_miss_falls_back {W : Type} (Redirect : W → Request → String → Nat → W)
    (pathsToUrls : StringMap) (fallback : Handler W) (w : W) (r : Request)
    (hkey : ∀ key ∈ pathsToUrls.keys, key ≠ r.Path) :
    (MapHandler Redirect pathsToUrls fallback w r).fallbackCalls = [r] ∧
    (MapHandler Redirect pathsToUrls fallback w r).w = fallback w r ∧
    ∀ other : W → Request → String → Nat → W,
      MapHandler other pathsToUrls fallback w r
        = MapHandler Redirect pathsToUrls fallback w r := by
  have habs : r.Path ∉ pathsToUrls.keys := fun hmem => hkey _ hmem rfl
  refine ⟨?_, ?_, ?_⟩
  · rw [MapHandler_of_absent Redirect pathsToUrls fallback w r habs]
  · rw [MapHandler_of_absent Redirect pathsToUrls fallback w r habs]
  · intro other
    rw [MapHandler_of_absent Redirect pathsToUrls fallback w r habs,
      MapHandler_of_absent other pathsToUrls fallback w r habs]

/-- C2 at a path that differs from the key `/urlshort` by a trailing slash. -/
theorem MapHandler_miss_falls_back_witness :
    (∀ key ∈ Example.urlshortMap.keys, key ≠ "/urlshort/") ∧
    (MapHandler Example.redirect Example.urlshortMap Example.notFound []
        { Method := "GET", Path := "/urlshort/" }).fallbackCalls
      = [{ Method := "GET", Path := "/urlshort/" }] ∧
    (MapHandler Example.redirect Example.urlshortMap Example.notFound []
        { Method := "GET", Path := "/urlshort/" }).w
      = Example.notFound [] { Method := "GET", Path := "/urlshort/" } ∧
    ∀ other : List Example.Reply → Request → String → Nat → List Example.Reply,
      MapHandler other Example.urlshortMap Example.notFound []
          { Method := "GET", Path := "/urlshort/" }
        = MapHandler Example.redirect Example.urlshortMap Example.notFound []
          { Method := "GET", Path := "/urlshort/" } :=
  ⟨by decide,
    MapHandler_miss_falls_back Example.redirect Example.urlshortMap Example.notFound []
      { Method := "GET", Path := "/urlshort/" } (by decide)⟩

/-! ## The mapping loader -/

/-- C3: when the decoded list holds a record `item` and no record after it has
the same path (whatever records with that path come before it), the mapping
built by `parseYAML` maps the path to the url of `item`: the last record of a
path wins. -/
theorem parseYAML_last_write_wins (Unmarshal : Bytes → List pathURL × Option Error)
    (yml : Bytes) (pre post : List pathURL) (item : pathURL)
    (hdata : Unmarshal yml = (pre ++ item :: post, none))
    (hlast : ∀ it ∈ post, it.Path ≠ item.Path) :
    ∃ m, parseYAML Unmarshal yml = (some m, none) ∧ m.get item.Path = some item.URL :=
  ⟨moveData StringMap.empty (pre ++ item :: post),
    parseYAML_of_decoded Unmarshal yml _ hdata,
    moveData_get_last StringMap.empty pre post item hlast⟩

/-- C3 at a list with two records for `/a` and one for `/b` between them. -/
theorem parseYAML_last_write_wins_witness :
    Example.decodeTo [⟨"/a", "first"⟩, ⟨"/b", "other"⟩, ⟨"/a", "last"⟩] none []
      = ([⟨"/a", "first"⟩, ⟨"/b", "other"⟩] ++ (⟨"/a", "last"⟩ : pathURL) :: [], none) ∧
    (∀ it ∈ ([] : List pathURL), it.Path ≠ (⟨"/a", "last"⟩ : pathURL).Path) ∧
    ∃ m, parseYAML
        (Example.decodeTo [⟨"/a", "first"⟩, ⟨"/b", "other"⟩, ⟨"/a", "last"⟩] none) []
          = (some m, none)
      ∧ m.get (⟨"/a", "last"⟩ : pathURL).Path = some (⟨"/a", "last"⟩ : pathURL).URL :=
  ⟨rfl, by decide,
    parseYAML_last_write_wins
      (Example.decodeTo [⟨"/a", "first"⟩, ⟨"/b", "other"⟩, ⟨"/a", "last"⟩] none) []
      [⟨"/a", "first"⟩, ⟨"/b", "other"⟩] [] ⟨"/a", "last"⟩ rfl (by decide)⟩

/-- C4: when `yaml.Unmarshal` returns an error, `parseYAML` returns that error
and the nil map, whatever the decoder left in `data`, and `YAMLHandler` returns
that error and the nil handler; neither function ever returns a map or a
handler together with an error. -/
theorem parseYAML_error_no_mapping {W : Type} (Redirect : W → Request → String → Nat → W)
    (Unmarshal : Bytes → List pathURL × Option Error) (yml : Bytes) (fallback : Handler W)
    (e : Error) (herr : (Unmarshal yml).2 = some e) :
    parseYAML Unmarshal yml = (none, some e) ∧
    YAMLHandler Redirect Unmarshal yml fallback = (none, some e) ∧
    (∀ (U : Bytes → List pathURL × Option Error) (b : Bytes),
      (parseYAML U b).2 ≠ none → (parseYAML U b).1 = none) ∧
    (∀ (U : Bytes → List pathURL × Option Error) (b : Bytes) (f : Handler W),
      (YAMLHandler Redirect U b f).2 ≠ none → (YAMLHandler Redirect U b f).1 = none) := by
  refine ⟨parseYAML_of_error Unmarshal yml e herr,
    YAMLHandler_of_error Redirect Unmarshal yml fallback e herr, ?_, ?_⟩
  · intro U b hne
    cases hU : (U b).2 with
    | none =>
      have hd : U b = ((U b).1, none) := by rw [← hU]
      rw [parseYAML_of_decoded U b _ hd] at hne
      exact absurd rfl hne
    | some e' => rw [parseYAML_of_error U b e' hU]
  · intro U b f hne
    cases hU : (U b).2 with
    | none =>
      have hd : U b = ((U b).1, none) := by rw [← hU]
      rw [YAMLHandler_of_decoded Redirect U b f _ hd] at hne
      exact absurd rfl hne
    | some e' => rw [YAMLHandler_of_error Redirect U b f e' hU]

/-- C4 at a decoder that fails after it has decoded one record. -/
theorem parseYAML_error_no_mapping_witness :
    (Example.decodeTo [⟨"/a", "x"⟩] (some "yaml: unmarshal errors") [45]).2
      = some "yaml: unmarshal errors" ∧
    (parseYAML (Example.decodeTo [⟨"/a", "x"⟩] (some "yaml: unmarshal errors")) [45]
        = (none, some "yaml: unmarshal errors") ∧
      YAMLHandler Example.redirect
          (Example.decodeTo [⟨"/a", "x"⟩] (some "yaml: unmarshal errors")) [45]
          Example.notFound
        = (none, some "yaml: unmarshal errors") ∧
      (∀ (U : Bytes → List pathURL × Option Error) (b : Bytes),
        (parseYAML U b).2 ≠ none → (parseYAML U b).1 = none) ∧
      (∀ (U : Bytes → List pathURL × Option Error) (b : Bytes)
          (f : Handler (List Example.Reply)),
        (YAMLHandler Example.redirect U b f).2 ≠ none
          → (YAMLHandler Example.redirect U b f).1 = none)) :=
  ⟨rfl,
    parseYAML_error_no_mapping Example.redirect
      (Example.decodeTo [⟨"/a", "x"⟩] (some "yaml: unmarshal errors")) [45]
      Example.notFound "yaml: unmarshal errors" rfl⟩

/-- C5: `YAMLHandler` returns exactly the error of `yaml.Unmarshal`, so it
returns an error if and only if decoding fails; and whenever the bytes decode
into a list of records, whatever the records are, it returns a handler and the
nil error. -/
theorem YAMLHandler_error_iff_decode_fails {W : Type}
    (Redirect : W → Request → String → Nat → W)
    (Unmarshal : Bytes → List pathURL × Option Error) (yml : Bytes) (fallback : Handler W) :
    (YAMLHandler Redirect Unmarshal yml fallback).2 = (Unmarshal yml).2 ∧
    ((YAMLHandler Redirect Unmarshal yml fallback).2 ≠ none ↔ (Unmarshal yml).2 ≠ none) ∧
    (∀ data : List pathURL, Unmarshal yml = (data, none) →
      ∃ h, YAMLHandler Redirect Unmarshal yml fallback = (some h, none)) := by
  have h1 : (YAMLHandler Redirect Unmarshal yml fallback).2 = (Unmarshal yml).2 := by
    cases hU : (Unmarshal yml).2 with
    | none =>
      have hd : Unmarshal yml = ((Unmarshal yml).1, none) := by rw [← hU]
      rw [YAMLHandler_of_decoded Redirect Unmarshal yml fallback _ hd]
    | some e => rw [YAMLHandler_of_error Redirect Unmarshal yml fallback e hU]
  refine ⟨h1, by rw [h1], ?_⟩
  intro data hdata
  exact ⟨_, YAMLHandler_of_decoded Redirect Unmarshal yml fallback data hdata⟩

/-- C7: the result of `parseYAML` on given bytes depends on nothing but what
`yaml.Unmarshal` returns for those bytes.  Two calls on the same bytes, each
with its own run of the decoder, return the same result as soon as the two
runs of the decoder agree on these bytes, however they differ on other input;
when the calls return mappings, both are the mapping built from the decoded
records starting from an empty map, so that they have the same keys and the
same value for every key. -/
theorem parseYAML_deterministic (first second : Bytes → List pathURL × Option Error)
    (yml : Bytes) (hsame : first yml = second yml) :
    parseYAML first yml = parseYAML second yml ∧
    ∀ m₁ m₂ : StringMap,
      (parseYAML first yml).1 = some m₁ → (parseYAML second yml).1 = some m₂ →
        m₁ = moveData StringMap.empty (first yml).1 ∧
        m₂ = moveData StringMap.empty (second yml).1 ∧
        (∀ p, p ∈ m₁.keys ↔ p ∈ m₂.keys) ∧ ∀ p, m₁.get p = m₂.get p := by
  have hcall : parseYAML first yml = parseYAML second yml := by
    simp only [parseYAML, hsame]
  refine ⟨hcall, ?_⟩
  intro m₁ m₂ h₁ h₂
  have hbuilt : ∀ (U : Bytes → List pathURL × Option Error) (m : StringMap),
      (parseYAML U yml).1 = some m → m = moveData StringMap.empty (U yml).1 := by
    intro U m hm
    cases hU : (U yml).2 with
    | some e =>
      rw [parseYAML_of_error U yml e hU] at hm
      cases hm
    | none =>
      have hd : U yml = ((U yml).1, none) := by rw [← hU]
      rw [parseYAML_of_decoded U yml _ hd] at hm
      exact (Option.some.inj hm).symm
  have e₁ := hbuilt first m₁ h₁
  have e₂ := hbuilt second m₂ h₂
  have heq : m₁ = m₂ := by rw [e₁, e₂, hsame]
  refine ⟨e₁, e₂, ?_, ?_⟩
  · intro p
    rw [heq]
  · intro p
    rw [heq]

/-- C7 at two decoders that agree on the three bytes of the call and differ on
every other input. -/
theorem parseYAML_deterministic_witness :
    Example.decodeAt [45, 32, 97] [⟨"/a", "x"⟩, ⟨"/a", "y"⟩] none [45, 32, 97]
      = Example.decodeTo [⟨"/a", "x"⟩, ⟨"/a", "y"⟩] none [45, 32, 97] ∧
    Example.decodeAt [45, 32, 97] [⟨"/a", "x"⟩, ⟨"/a", "y"⟩] none []
      ≠ Example.decodeTo [⟨"/a", "x"⟩, ⟨"/a", "y"⟩] none [] ∧
    (parseYAML (Example.decodeAt [45, 32, 97] [⟨"/a", "x"⟩, ⟨"/a", "y"⟩] none) [45, 32, 97]
        = parseYAML (Example.decodeTo [⟨"/a", "x"⟩, ⟨"/a", "y"⟩] none) [45, 32, 97] ∧
      ∀ m₁ m₂ : StringMap,
        (parseYAML (Example.decodeAt [45, 32, 97] [⟨"/a", "x"⟩, ⟨"/a", "y"⟩] none)
          [45, 32, 97]).1 = some m₁ →
        (parseYAML (Example.decodeTo [⟨"/a", "x"⟩, ⟨"/a", "y"⟩] none) [45, 32, 97]).1
          = some m₂ →
          m₁ = moveData StringMap.empty
            (Example.decodeAt [45, 32, 97] [⟨"/a", "x"⟩, ⟨"/a", "y"⟩] none [45, 32, 97]).1 ∧
          m₂ = moveData StringMap.empty
            (Example.decodeTo [⟨"/a", "x"⟩, ⟨"/a", "y"⟩] none [45, 32, 97]).1 ∧
          (∀ p, p ∈ m₁.keys ↔ p ∈ m₂.keys) ∧ ∀ p, m₁.get p = m₂.get p) :=
  ⟨by decide, by decide,
    parseYAML_deterministic
      (Example.decodeAt [45, 32, 97] [⟨"/a", "x"⟩, ⟨"/a", "y"⟩] none)
      (Example.decodeTo [⟨"/a", "x"⟩, ⟨"/a", "y"⟩] none) [45, 32, 97] (by decide)⟩

/-- C8: when the bytes decode into `data`, `parseYAML` returns a mapping and
the nil error; a string is a key of the mapping if and only if some record of
`data` has it as its path, and no key occurs twice; the empty list gives the
empty mapping and the single record of the example gives exactly the mapping
of `/urlshort` to `https://github.com/gophercises/urlshort`. -/
theorem parseYAML_keys (Unmarshal : Bytes → List pathURL × Option Error) (yml : Bytes)
    (data : List pathURL) (hdata : Unmarshal yml = (data, none)) :
    ∃ m, parseYAML Unmarshal yml = (some m, none) ∧
      (∀ p, p ∈ m.keys ↔ ∃ item ∈ data, item.Path = p) ∧
      (∀ p, (m.get p).isSome ↔ ∃ item ∈ data, item.Path = p) ∧
      m.keys.Nodup ∧
      (data = [] → m = StringMap.empty) ∧
      (data = [⟨"/urlshort", "https://github.com/gophercises/urlshort"⟩] →
        m = [("/urlshort", "https://github.com/gophercises/urlshort")]) := by
  have hkeys : ∀ p, p ∈ (moveData StringMap.empty data).keys
      ↔ ∃ item ∈ data, item.Path = p := by
    intro p
    rw [mem_keys_moveData]
    simp [StringMap.empty, StringMap.keys]
  refine ⟨moveData StringMap.empty data, parseYAML_of_decoded Unmarshal yml data hdata,
    hkeys, ?_, ?_, ?_, ?_⟩
  · intro p
    rw [StringMap.get_isSome_iff]
    exact hkeys p
  · exact nodup_keys_moveData data StringMap.empty (by simp [StringMap.empty, StringMap.keys])
  · intro h
    subst h
    rfl
  · intro h
    subst h
    rfl

/-- C8 at the single record of the example of the specification. -/
theorem parseYAML_keys_witness :
    Example.decodeTo [⟨"/urlshort", "https://github.com/gophercises/urlshort"⟩] none [45]
      = ([⟨"/urlshort", "https://github.com/gophercises/urlshort"⟩], none) ∧
    ∃ m, parseYAML
        (Example.decodeTo [⟨"/urlshort", "https://github.com/gophercises/urlshort"⟩] none)
        [45] = (some m, none) ∧
      (∀ p, p ∈ m.keys ↔
        ∃ item ∈ [(⟨"/urlshort", "https://github.com/gophercises/urlshort"⟩ : pathURL)],
          item.Path = p) ∧
      (∀ p, (m.get p).isSome ↔
        ∃ item ∈ [(⟨"/urlshort", "https://github.com/gophercises/urlshort"⟩ : pathURL)],
          item.Path = p) ∧
      m.keys.Nodup ∧
      ([(⟨"/urlshort", "https://github.com/gophercises/urlshort"⟩ : pathURL)] = [] →
        m = StringMap.empty) ∧
      ([(⟨"/urlshort", "https://github.com/gophercises/urlshort"⟩ : pathURL)]
          = [⟨"/urlshort", "https://github.com/gophercises/urlshort"⟩] →
        m = [("/urlshort", "https://github.com/gophercises/urlshort")]) :=
  ⟨rfl,
    parseYAML_keys
      (Example.decodeTo [⟨"/urlshort", "https://github.com/gophercises/urlshort"⟩] none)
      [45] [⟨"/urlshort", "https://github.com/gophercises/urlshort"⟩] rfl⟩

/-- C9: a record that omits a field is loaded like any other.  The omitted
field is the empty string in the record; when no later record has the same
path, the mapping built by `parseYAML` (returned with the nil error) maps the
path of the record, `""` when the path is omitted, to its url, `""` when the
url is omitted; and for a request with that path the handler of `MapHandler`
calls `http.Redirect` with that url and code 302 and hands nothing to the
fallback. -/
theorem parseYAML_missing_field_accepted {W : Type}
    (Redirect : W → Request → String → Nat → W)
    (Unmarshal : Bytes → List pathURL × Option Error) (yml : Bytes) (fallback : Handler W)
    (pre post : List pathURL) (path url : Option String)
    (hdata : Unmarshal yml = (pre ++ pathURL.ofFields path url :: post, none))
    (hlast : ∀ it ∈ post, it.Path ≠ path.getD "") :
    (path = none → (pathURL.ofFields path url).Path = "") ∧
    (url = none → (pathURL.ofFields path url).URL = "") ∧
    ∃ m, parseYAML Unmarshal yml = (some m, none) ∧
      path.getD "" ∈ m.keys ∧
      m.get (path.getD "") = some (url.getD "") ∧
      ∀ (w : W) (r : Request), r.Path = path.getD "" →
        MapHandler Redirect m fallback w r
          = { w := Redirect w r (url.getD "") 302, fallbackCalls := [] } := by
  have hget : (moveData StringMap.empty (pre ++ pathURL.ofFields path url :: post)).get
      (path.getD "") = some (url.getD "") :=
    moveData_get_last StringMap.empty pre post (pathURL.ofFields path url) hlast
  refine ⟨?_, ?_, _, parseYAML_of_decoded Unmarshal yml _ hdata, ?_, hget, ?_⟩
  · intro h
    subst h
    rfl
  · intro h
    subst h
    rfl
  · rw [← StringMap.get_isSome_iff, hget]
    rfl
  · intro w r hr
    have hget' : (moveData StringMap.empty (pre ++ pathURL.ofFields path url :: post)).get
        r.Path = some (url.getD "") := by rw [hr]; exact hget
    rw [MapHandler_of_get Redirect _ fallback w r _ hget']
    rfl

/-- C9 at a list whose first record has no url and whose second has no path. -/
theorem parseYAML_missing_field_accepted_witness :
    Example.decodeTo
        [pathURL.ofFields (some "/no-url") none, pathURL.ofFields none (some "/target")]
        none [45]
      = ([] ++ pathURL.ofFields (some "/no-url") none
          :: [pathURL.ofFields none (some "/target")], none) ∧
    (∀ it ∈ [pathURL.ofFields none (some "/target")],
      it.Path ≠ (some "/no-url" : Option String).getD "") ∧
    ((some "/no-url" : Option String) = none →
      (pathURL.ofFields (some "/no-url") none).Path = "") ∧
    ((none : Option String) = none → (pathURL.ofFields (some "/no-url") none).URL = "") ∧
    ∃ m, parseYAML (Example.decodeTo
        [pathURL.ofFields (some "/no-url") none, pathURL.ofFields none (some "/target")]
        none) [45] = (some m, none) ∧
      (some "/no-url" : Option String).getD "" ∈ m.keys ∧
      m.get ((some "/no-url" : Option String).getD "")
        = some ((none : Option String).getD "") ∧
      ∀ (w : List Example.Reply) (r : Request),
        r.Path = (some "/no-url" : Option String).getD "" →
        MapHandler Example.redirect m Example.notFound w r
          = { w := Example.redirect w r ((none : Option String).getD "") 302,
              fallbackCalls := [] } :=
  ⟨rfl, by decide,
    parseYAML_missing_field_accepted Example.redirect
      (Example.decodeTo
        [pathURL.ofFields (some "/no-url") none, pathURL.ofFields none (some "/target")]
        none) [45] Example.notFound [] [pathURL.ofFields none (some "/target")]
      (some "/no-url") none rfl (by decide)⟩

/-! ## `YAMLHandler` and `MapHandler` -/

/-- C10: when `YAMLHandler` returns a handler and the nil error, `parseYAML`
returns a mapping `m` for the same bytes and the handler is `MapHandler` of `m`
and the same fallback: for every response writer and request both leave the
same response and hand the same requests to the fallback.  Hence a request
whose path is the path of no record of the YAML is served by the fallback,
called once. -/
theorem YAMLHandler_is_MapHandler {W : Type} (Redirect : W → Request → String → Nat → W)
    (Unmarshal : Bytes → List pathURL × Option Error) (yml : Bytes) (fallback : Handler W)
    (h : HandlerFunc W)
    (hok : YAMLHandler Redirect Unmarshal yml fallback = (some h, none)) :
    ∃ m, parseYAML Unmarshal yml = (some m, none) ∧
      (∀ (w : W) (r : Request), h w r = MapHandler Redirect m fallback w r) ∧
      (∀ (w : W) (r : Request),
        (h w r).fallbackCalls.length
          = (MapHandler Redirect m fallback w r).fallbackCalls.length) ∧
      ∀ r : Request, (∀ item ∈ (Unmarshal yml).1, item.Path ≠ r.Path) →
        ∀ w : W, (h w r).w = fallback w r ∧ (h w r).fallbackCalls = [r] := by
  cases hU : (Unmarshal yml).2 with
  | some e =>
    rw [YAMLHandler_of_error Redirect Unmarshal yml fallback e hU] at hok
    cases hok
  | none =>
    have hd : Unmarshal yml = ((Unmarshal yml).1, none) := by rw [← hU]
    rw [YAMLHandler_of_decoded Redirect Unmarshal yml fallback _ hd] at hok
    have hh : MapHandler Redirect (moveData StringMap.empty (Unmarshal yml).1) fallback = h := by
      injection hok with h1 _
      exact Option.some.inj h1
    subst hh
    refine ⟨_, parseYAML_of_decoded Unmarshal yml _ hd, fun _ _ => rfl, fun _ _ => rfl, ?_⟩
    intro r habs w
    have hnot : r.Path ∉ (moveData StringMap.empty (Unmarshal yml).1).keys := by
      rw [mem_keys_moveData]
      rintro (hmem | ⟨item, hitem, hp⟩)
      · simp [StringMap.empty, StringMap.keys] at hmem
      · exact habs item hitem hp
    rw [MapHandler_of_absent Redirect _ fallback w r hnot]
    exact ⟨rfl, rfl⟩

/-- C10 at a YAML of one record for `/a`. -/
theorem YAMLHandler_is_MapHandler_witness :
    YAMLHandler Example.redirect (Example.decodeTo [⟨"/a", "x"⟩] none) [45] Example.notFound
      = (some (MapHandler Example.redirect [("/a", "x")] Example.notFound), none) ∧
    ∃ m, parseYAML (Example.decodeTo [⟨"/a", "x"⟩] none) [45] = (some m, none) ∧
      (∀ (w : List Example.Reply) (r : Request),
        MapHandler Example.redirect [("/a", "x")] Example.notFound w r
          = MapHandler Example.redirect m Example.notFound w r) ∧
      (∀ (w : List Example.Reply) (r : Request),
        (MapHandler Example.redirect [("/a", "x")] Example.notFound w r).fallbackCalls.length
          = (MapHandler Example.redirect m Example.notFound w r).fallbackCalls.length) ∧
      ∀ r : Request,
        (∀ item ∈ (Example.decodeTo [⟨"/a", "x"⟩] none [45]).1, item.Path ≠ r.Path) →
        ∀ w : List Example.Reply,
          (MapHandler Example.redirect [("/a", "x")] Example.notFound w r).w
            = Example.notFound w r ∧
          (MapHandler Example.redirect [("/a", "x")] Example.notFound w r).fallbackCalls
            = [r] :=
  ⟨rfl,
    YAMLHandler_is_MapHandler Example.redirect (Example.decodeTo [⟨"/a", "x"⟩] none) [45]
      Example.notFound (MapHandler Example.redirect [("/a", "x")] Example.notFound) rfl⟩

/-! ## The response on a hit -/

namespace http

theorem cleanElem_pos (path : List Char) (r : Nat) (hr : r < path.length)
    (hne : ¬ path.getD r ' ' = '/') :
    0 < ((path.drop r).takeWhile (fun c => c ≠ '/')).length := by
  rw [List.getD_eq_getElem _ _ hr] at hne
  rw [List.drop_eq_getElem_cons hr, List.takeWhile_cons]
  have hd : decide (path[r] ≠ '/') = true := decide_eq_true hne
  rw [hd]
  exact Nat.succ_pos _

/-- The bound on the rounds of `cleanLoop` is never reached: with more rounds
than bytes left to read, the result does not depend on the bound. -/
theorem cleanLoop_fuel (path : List Char) (rooted : Bool) :
    ∀ (fuel fuel' r : Nat) (out : List Char) (dotdot : Nat),
      path.length - r < fuel → path.length - r < fuel' →
      cleanLoop path rooted fuel r out dotdot = cleanLoop path rooted fuel' r out dotdot := by
  intro fuel
  induction fuel with
  | zero => intro fuel' r out dotdot h; omega
  | succ fuel ih =>
    intro fuel' r out dotdot h h'
    cases fuel' with
    | zero => omega
    | succ fuel' =>
      by_cases hr : r < path.length
      · have hpos := cleanElem_pos path r hr
        simp only [cleanLoop, hr, if_true]
        split_ifs with h1 <;> (try have hlen := hpos h1) <;>
          exact ih _ _ _ _ (by omega) (by omega)
      · simp only [cleanLoop, hr, if_false]

theorem Header.values_Set_self (h : Header) (key value : String) :
    (h.Set key value).values key = [value] := by
  induction h with
  | nil => simp [Header.Set, Header.values]
  | cons kv rest ih =>
    obtain ⟨k, vs⟩ := kv
    by_cases hk : k = key
    · simp [Header.Set, Header.values, hk]
    · simp [Header.Set, Header.values, hk, ih]

theorem Header.values_Set_other (h : Header) (key value other : String) (hne : key ≠ other) :
    (h.Set key value).values other = h.values other := by
  induction h with
  | nil => simp [Header.Set, Header.values, hne]
  | cons kv rest ih =>
    obtain ⟨k, vs⟩ := kv
    by_cases hk : k = key
    · subst hk
      simp [Header.Set, Header.values, hne]
    · by_cases hk' : k = other
      · subst hk'
        simp [Header.Set, Header.values, hk]
      · simp only [Header.Set, hk, if_false, Header.values, hk', ih]

theorem hexEscapeNonASCII_of_ascii (s : List Char) (h : ∀ c ∈ s, c.toNat < 128) :
    hexEscapeNonASCII s = s := by
  induction s with
  | nil => rfl
  | cons c rest ih =>
    have hc : c.toNat < 128 := h c (List.mem_cons_self _ _)
    have hrest : hexEscapeNonASCII rest = rest :=
      ih (fun d hd => h d (List.mem_cons_of_mem _ hd))
    unfold hexEscapeNonASCII at hrest ⊢
    simp only [List.flatMap_cons, hc, if_true, hrest, List.singleton_append]

theorem redirectTarget_of_absolute (urlParse : String → Option (String × String))
    (escapedPath : Request → String) (r : Request) (url : String)
    (h : urlParse url = none ∨
      ∃ scheme host, urlParse url = some (scheme, host) ∧ (scheme ≠ "" ∨ host ≠ "")) :
    redirectTarget urlParse escapedPath r url = url := by
  rcases h with h | ⟨scheme, host, h, hne⟩
  · simp [redirectTarget, h]
  · have hn : ¬ (scheme = "" ∧ host = "") := by
      rintro ⟨h1, h2⟩
      rcases hne with h3 | h3
      · exact h3 h1
      · exact h3 h2
    simp only [redirectTarget, h, hn, if_false]

theorem Redirect_header (urlParse : String → Option (String × String))
    (escapedPath : Request → String) (w : ResponseWriter)
    (r : Request) (url : String) (code : Nat) :
    (Redirect urlParse escapedPath w r url code).header.values "Location"
      = [String.mk (hexEscapeNonASCII (redirectTarget urlParse escapedPath r url).toList)] := by
  have hne : ("Location" : String) ≠ "Content-Type" := by decide
  have hne' : ("Content-Type" : String) ≠ "Location" := by decide
  cases hct : w.header.has "Content-Type" <;> by_cases hget : r.Method = "GET" <;>
    by_cases hhead : r.Method = "HEAD" <;> cases hw : w.wroteHeader <;>
    simp [Redirect, Fprintln, ResponseWriter.Write, ResponseWriter.WriteHeader, hct, hget,
      hhead, hw, Header.values_Set_self, Header.values_Set_other, hne, hne']

theorem Redirect_status (urlParse : String → Option (String × String))
    (escapedPath : Request → String) (w : ResponseWriter)
    (r : Request) (url : String) (code : Nat) (hfresh : w.wroteHeader = false) :
    (Redirect urlParse escapedPath w r url code).wroteHeader = true ∧
    (Redirect urlParse escapedPath w r url code).status = code := by
  cases hct : w.header.has "Content-Type" <;> by_cases hget : r.Method = "GET" <;>
    by_cases hhead : r.Method = "HEAD" <;>
    simp [Redirect, Fprintln, ResponseWriter.Write, ResponseWriter.WriteHeader, hct, hget,
      hhead, hfresh]

theorem Redirect_body_kept (urlParse : String → Option (String × String))
    (escapedPath : Request → String) (w : ResponseWriter)
    (r : Request) (url : String) (code : Nat)
    (h : r.Method ≠ "GET" ∨ w.header.has "Content-Type" = true) :
    (Redirect urlParse escapedPath w r url code).body = w.body := by
  rcases h with h | h
  · cases hct : w.header.has "Content-Type" <;> by_cases hhead : r.Method = "HEAD" <;>
      cases hw : w.wroteHeader <;>
      simp [Redirect, Fprintln, ResponseWriter.Write, ResponseWriter.WriteHeader, hct, h,
        hhead, hw]
  · by_cases hget : r.Method = "GET" <;> by_cases hhead : r.Method = "HEAD" <;>
      cases hw : w.wroteHeader <;>
      simp [Redirect, Fprintln, ResponseWriter.Write, ResponseWriter.WriteHeader, h, hget,
        hhead, hw]

theorem Redirect_body_get (urlParse : String → Option (String × String))
    (escapedPath : Request → String) (w : ResponseWriter)
    (r : Request) (url : String) (code : Nat)
    (hget : r.Method = "GET") (hct : w.header.has "Content-Type" = false) :
    (Redirect urlParse escapedPath w r url code).body
      = w.body ++ ("<a href=\""
          ++ String.mk (htmlEscape (redirectTarget urlParse escapedPath r url).toList)
          ++ "\">" ++ StatusText code ++ "</a>.\n" ++ "\n") := by
  cases hw : w.wroteHeader <;>
    simp [Redirect, Fprintln, ResponseWriter.Write, ResponseWriter.WriteHeader, hct, hget, hw,
      String.append_assoc]

end http

/-- C6 (as the code has it): on a hit, for a response whose header has not been
written yet, the response of the handler of `MapHandler` has status 302 for
every request and every mapped url, and nothing is written to the body when
the request method is not GET or a Content-Type header was set before.  For a
mapped url that `http.Redirect` leaves as it is, one on which `url.Parse` fails
or in which it finds a scheme or a host: the Location header is the url with
its non-ASCII bytes escaped, which is the url exactly as stored when it is
ASCII, and for a GET request without a Content-Type header the body receives
the note `<a href="...">Found</a>.` on that url and two newlines. -/
theorem MapHandler_hit_response (urlParse : String → Option (String × String))
    (escapedPath : Request → String)
    (pathsToUrls : StringMap) (fallback : Handler http.ResponseWriter)
    (w : http.ResponseWriter) (r : Request) (url : String)
    (hhit : pathsToUrls.get r.Path = some url) (hfresh : w.wroteHeader = false) :
    (MapHandler (http.Redirect urlParse escapedPath) pathsToUrls fallback w r).fallbackCalls
      = [] ∧
    (MapHandler (http.Redirect urlParse escapedPath) pathsToUrls fallback w r).w.wroteHeader
      = true ∧
    (MapHandler (http.Redirect urlParse escapedPath) pathsToUrls fallback w r).w.status
      = 302 ∧
    ((r.Method ≠ "GET" ∨ w.header.has "Content-Type" = true) →
      (MapHandler (http.Redirect urlParse escapedPath) pathsToUrls fallback w r).w.body
        = w.body) ∧
    ((urlParse url = none ∨
        ∃ scheme host, urlParse url = some (scheme, host) ∧ (scheme ≠ "" ∨ host ≠ "")) →
      (MapHandler (http.Redirect urlParse escapedPath) pathsToUrls fallback w r).w.header.values
          "Location"
        = [String.mk (http.hexEscapeNonASCII url.toList)] ∧
      ((∀ c ∈ url.toList, c.toNat < 128) →
        (MapHandler (http.Redirect urlParse escapedPath) pathsToUrls fallback w
            r).w.header.values "Location"
          = [url]) ∧
      (r.Method = "GET" → w.header.has "Content-Type" = false →
        (MapHandler (http.Redirect urlParse escapedPath) pathsToUrls fallback w r).w.body
          = w.body ++ ("<a href=\"" ++ String.mk (http.htmlEscape url.toList)
              ++ "\">" ++ "Found" ++ "</a>.\n" ++ "\n"))) := by
  rw [MapHandler_of_get (http.Redirect urlParse escapedPath) pathsToUrls fallback w r url hhit]
  refine ⟨rfl, (http.Redirect_status urlParse escapedPath w r url StatusFound hfresh).1,
    (http.Redirect_status urlParse escapedPath w r url StatusFound hfresh).2,
    http.Redirect_body_kept urlParse escapedPath w r url StatusFound, ?_⟩
  intro habs
  have htarget := http.redirectTarget_of_absolute urlParse escapedPath r url habs
  have hloc := http.Redirect_header urlParse escapedPath w r url StatusFound
  rw [htarget] at hloc
  refine ⟨hloc, ?_, ?_⟩
  · intro hascii
    show (http.Redirect urlParse escapedPath w r url StatusFound).header.values "Location"
      = [url]
    rw [hloc, http.hexEscapeNonASCII_of_ascii _ hascii]
    rfl
  · intro hget hct
    have hbody := http.Redirect_body_get urlParse escapedPath w r url StatusFound hget hct
    rw [htarget] at hbody
    exact hbody

/-- C6 at a POST request for `/urlshort` on a fresh response writer: status 302,
nothing written to the body, the Location header as stored. -/
theorem MapHandler_hit_response_witness :
    Example.urlshortMap.get (Request.mk "POST" "/urlshort").Path
      = some "https://github.com/gophercises/urlshort" ∧
    http.ResponseWriter.fresh.wroteHeader = false ∧
    (MapHandler (http.Redirect Example.urlParse Example.escapedPath) Example.urlshortMap
        Example.idle http.ResponseWriter.fresh (Request.mk "POST" "/urlshort")).w.status
      = 302 ∧
    (MapHandler (http.Redirect Example.urlParse Example.escapedPath) Example.urlshortMap
        Example.idle http.ResponseWriter.fresh (Request.mk "POST" "/urlshort")).w.body
      = "" ∧
    (MapHandler (http.Redirect Example.urlParse Example.escapedPath) Example.urlshortMap
        Example.idle http.ResponseWriter.fresh
        (Request.mk "POST" "/urlshort")).w.header.values "Location"
      = ["https://github.com/gophercises/urlshort"] :=
  ⟨by decide, rfl,
    (MapHandler_hit_response Example.urlParse Example.escapedPath Example.urlshortMap
      Example.idle http.ResponseWriter.fresh (Request.mk "POST" "/urlshort")
      "https://github.com/gophercises/urlshort" (by decide) rfl).2.2.1,
    (MapHandler_hit_response Example.urlParse Example.escapedPath Example.urlshortMap
      Example.idle http.ResponseWriter.fresh (Request.mk "POST" "/urlshort")
      "https://github.com/gophercises/urlshort" (by decide) rfl).2.2.2.1
      (Or.inl (by decide)),
    ((MapHandler_hit_response Example.urlParse Example.escapedPath Example.urlshortMap
      Example.idle http.ResponseWriter.fresh (Request.mk "POST" "/urlshort")
      "https://github.com/gophercises/urlshort" (by decide) rfl).2.2.2.2
      (Or.inr ⟨"https", "github.com", by decide, Or.inl (by decide)⟩)).2.1 (by decide)⟩

/-- C6 as stated fails.  For the GET request of the example of the
specification, `/urlshort` mapped to `https://github.com/gophercises/urlshort`,
the handler answers on a fresh response writer with a body that is not empty,
the HTML note of `http.Redirect`.  And for a path mapped to the empty url, the
Location header is not the stored url: for the request path `/go` it is `/`. -/
theorem MapHandler_hit_response_counterexample :
    (Example.urlshortMap.get "/urlshort" = some "https://github.com/gophercises/urlshort" ∧
      (MapHandler (http.Redirect Example.urlParse Example.escapedPath) Example.urlshortMap
          Example.idle http.ResponseWriter.fresh (Request.mk "GET" "/urlshort")).w
        = { header := [("Location", ["https://github.com/gophercises/urlshort"]),
                       ("Content-Type", ["text/html; charset=utf-8"])],
            wroteHeader := true,
            status := 302,
            body := "<a href=\"https://github.com/gophercises/urlshort\">Found</a>.\n\n" } ∧
      (MapHandler (http.Redirect Example.urlParse Example.escapedPath) Example.urlshortMap
          Example.idle http.ResponseWriter.fresh (Request.mk "GET" "/urlshort")).w.body
        ≠ "") ∧
    (StringMap.get [("/go", "")] "/go" = some "" ∧
      (MapHandler (http.Redirect Example.urlParse Example.escapedPath) [("/go", "")]
          Example.idle http.ResponseWriter.fresh (Request.mk "POST" "/go")).w
        = { header := [("Location", ["/"])], wroteHeader := true, status := 302, body := "" } ∧
      (MapHandler (http.Redirect Example.urlParse Example.escapedPath) [("/go", "")]
          Example.idle http.ResponseWriter.fresh
          (Request.mk "POST" "/go")).w.header.values "Location"
        ≠ [""]) := by
  refine ⟨⟨by decide, by decide, by decide⟩, ⟨by decide, by decide, by decide⟩⟩

end urlshort
